import Mathlib

/-!
Shallow embedding of the persistence layer (`app/lib/shop.server.js`), the
option transformation utilities (`app/utils/optionUtils.js`) and the client
state store (`app/hooks/useOptions.js`) of the shopify-product-variant-extends
repository, together with theorems settling the frozen claims about them.

Modelling conventions:
* The SQLite/Prisma store is a pair of tables (`options`, `values`); rows are
  records whose fields mirror the Prisma schema (`VariantOption`,
  `VariantOptionValue`).  Generated cuid primary keys of value rows are never
  read by any operation under study, so value rows carry no `id` column; the
  generated id of a freshly created option is passed in as an explicit `genId`
  oracle argument.
* JavaScript `x || d` on possibly-missing numbers/strings/booleans is modelled
  by `jsOrInt` / `jsOrStr` / `jsOrBool` on `Option` values: `none` stands for
  `undefined`, and a present falsy value (`0`, `""`, `false`) also falls back,
  exactly as `||` does.  ES destructuring defaults (`{ type = "text" }`), which
  fire only on `undefined`, are modelled by `Option.getD`.
* Each fallible server operation returns the post-call store paired with an
  `Except String` outcome, so non-atomic behaviour (a partial mutation that
  survives a thrown error) is directly expressible.
* Prisma `orderBy: position asc` is a stable sort, modelled by
  `List.insertionSort` on the `position` field.
-/

/-- A row of the `variant_options` table (Prisma model `VariantOption`). -/
structure VariantOption where
  id : String
  name : String
  type : String
  position : Int
  isRequired : Bool
  shop : String
deriving DecidableEq, Repr

/-- A row of the `variant_option_values` table (Prisma model
`VariantOptionValue`); the generated `id` column is never read by the
operations under study and is omitted. -/
structure VariantOptionValue where
  value : String
  position : Int
  isActive : Bool
  variantOptionId : String
deriving DecidableEq, Repr

/-- The relational store: both tables. -/
structure DB where
  options : List VariantOption
  values : List VariantOptionValue
deriving DecidableEq, Repr

/-- JavaScript `x || d` for an `Int`-valued field that may be `undefined`
(`none`): both `undefined` and the falsy number `0` fall back to `d`. -/
def jsOrInt : Option Int → Int → Int
  | none, d => d
  | some x, d => if x = 0 then d else x

/-- JavaScript `x || d` for a `String`-valued field: `undefined` and the falsy
empty string fall back to `d`. -/
def jsOrStr : Option String → String → String
  | none, d => d
  | some x, d => if x = "" then d else x

/-- JavaScript `x || d` for a `Bool`-valued field: `undefined` and `false`
fall back to `d`. -/
def jsOrBool : Option Bool → Bool → Bool
  | none, d => d
  | some x, d => if x = false then d else x

/-- One element of the `values` array accepted by `createOptions` /
`updateOptions`: either a raw string or a `{value, position, isActive}`
object whose `position` and `isActive` may be absent (`undefined`). -/
inductive ValueInput
  | str (s : String)
  | obj (value : String) (position : Option Int) (isActive : Option Bool)
deriving DecidableEq, Repr

/-- The record built for one input element: the fields Prisma is asked to
store for the nested value create. -/
structure CreatedValue where
  value : String
  position : Int
  isActive : Bool
deriving DecidableEq, Repr

/-- `values.map((value, index) => ({value: value.value || value, position:
value.position || index, isActive: value.isActive !== undefined ?
value.isActive : true}))` at one index.  For a raw string `value.value`,
`value.position` and `value.isActive` are all `undefined`, so the string
itself, the array index and `true` are used.  For an object, `value.value ||
value` resolves to the object's `value` field, `value.position || index` is
the JS `||` (a present position `0` also falls back to the index), and the
explicit `!== undefined` test keeps a present `false` for `isActive`. -/
def materializeValue : ValueInput → Nat → CreatedValue
  | .str s, index => { value := s, position := index, isActive := true }
  | .obj v p a, index =>
      { value := v, position := jsOrInt p index, isActive := a.getD true }

/-- The whole `values.map((value, index) => ...)` call, indices running from
`k`. -/
def materializeFrom : Nat → List ValueInput → List CreatedValue
  | _, [] => []
  | k, v :: rest => materializeValue v k :: materializeFrom (k + 1) rest

/-- The whole `values.map((value, index) => ...)` call. -/
def materializeValues (values : List ValueInput) : List CreatedValue :=
  materializeFrom 0 values

/-- Whether a list of strings is duplicate-free; the satisfaction check for
the `(variantOptionId, value)` unique index over one option's value rows. -/
def nodupValues : List String → Bool
  | [] => true
  | x :: xs => !(xs.contains x) && nodupValues xs

/-- The `optionData` argument of `createOptions`; destructured as
`{ name, type = "text", position = 0, isRequired = true, values = [] }`,
so every field but `name` may be `undefined`. -/
structure CreateInput where
  name : String
  type : Option String
  position : Option Int
  isRequired : Option Bool
  values : List ValueInput
deriving DecidableEq, Repr

/-- `createOptions(shop, optionData)`: a single `prisma.variantOption.create`
with a nested create of the values — one atomic unit, so on any constraint
violation the store is unchanged.  `genId` is the cuid Prisma generates for
the new option.  The schema's unique indexes `(shop, name)` on options and
`(variantOptionId, value)` on values, and the primary key on `id`, are the
failure conditions. -/
def createOptions (db : DB) (genId : String) (shop : String)
    (optionData : CreateInput) :
    DB × Except String (VariantOption × List VariantOptionValue) :=
  let name := optionData.name
  let type := optionData.type.getD "text"
  let position := optionData.position.getD 0
  let isRequired := optionData.isRequired.getD true
  let newVals : List VariantOptionValue :=
    (materializeValues optionData.values).map (fun c =>
      { value := c.value, position := c.position, isActive := c.isActive,
        variantOptionId := genId })
  let opt : VariantOption :=
    { id := genId, name := name, type := type, position := position,
      isRequired := isRequired, shop := shop }
  if db.options.any (fun o => o.id == genId) then
    (db, .error "Unique constraint failed on the fields: (id)")
  else if db.options.any (fun o => o.shop == shop && o.name == name) then
    (db, .error "Unique constraint failed on the fields: (shop,name)")
  else if nodupValues (newVals.map (fun v => v.value)) then
    (({ options := db.options ++ [opt], values := db.values ++ newVals } : DB),
     .ok (opt, newVals))
  else
    (db, .error "Unique constraint failed on the fields: (variantOptionId,value)")

/-- The `optionData` argument of `updateOptions`; destructured as
`{ name, type = "text", values = [] }`. -/
structure UpdateInput where
  name : String
  type : Option String
  values : List ValueInput
deriving DecidableEq, Repr

/-- `updateOptions(optionId, optionData)`.  The source performs and awaits TWO
separate Prisma calls with no surrounding `prisma.$transaction`:

1. `prisma.variantOptionValue.deleteMany({where: {variantOptionId}})` —
   commits on its own;
2. `prisma.variantOption.update({where: {id}, data: {name, type, values:
   {create: ...}}})` — one atomic unit that throws if no option row matches
   `optionId` (Prisma P2025) or if the new `name` collides with another
   option of the same shop on the `(shop, name)` unique index, or if the
   created values collide on `(variantOptionId, value)` (P2002).

Accordingly the model always applies the value deletion to the store, and on
a failure of step 2 returns the store with step 1 already applied. -/
def updateOptions (db : DB) (optionId : String) (optionData : UpdateInput) :
    DB × Except String (VariantOption × List VariantOptionValue) :=
  let name : String := optionData.name
  let type : String := optionData.type.getD "text"
  let db1 : DB :=
    { db with values := db.values.filter (fun v => !(v.variantOptionId == optionId)) }
  let newVals : List VariantOptionValue :=
    (materializeValues optionData.values).map (fun c =>
      { value := c.value, position := c.position, isActive := c.isActive,
        variantOptionId := optionId })
  match db1.options.find? (fun o => o.id == optionId) with
  | none => (db1, .error "Record to update not found")
  | some target =>
    if db1.options.any (fun o => !(o.id == optionId) && o.shop == target.shop
        && o.name == name) then
      (db1, .error "Unique constraint failed on the fields: (shop,name)")
    else if nodupValues (newVals.map (fun v => v.value)) then
      let updated : VariantOption := { target with name := name, type := type }
      (({ options := db1.options.map (fun o => if o.id == optionId then updated else o),
          values := db1.values ++ newVals } : DB),
       .ok (updated, newVals))
    else
      (db1, .error "Unique constraint failed on the fields: (variantOptionId,value)")

/-- `getOptions(shop)`: `prisma.variantOption.findMany` filtered by `shop`,
`orderBy: position asc` on the options, each option including its values
`orderBy: position asc`.  The `orderBy` clauses are modelled by a stable sort
on the `position` field; each returned row is paired with its included,
sorted value rows. -/
def getOptions (db : DB) (shop : String) :
    List (VariantOption × List VariantOptionValue) :=
  let sortedOpts :=
    List.insertionSort (fun a b => a.position ≤ b.position)
      (db.options.filter (fun o => o.shop == shop))
  sortedOpts.map (fun o =>
    (o, List.insertionSort (fun a b => a.position ≤ b.position)
          (db.values.filter (fun v => v.variantOptionId == o.id))))

/-- `deleteOptions(optionIds, shop)` (the list-argument form; a single id is
first wrapped into a one-element array by the source).  Validates a non-empty
id list and a present (truthy, i.e. non-empty) shop, loads
`{id, name}` of the options matching `id ∈ optionIds ∧ shop = shop`, throws
naming the ids without a match when the counts differ, and otherwise runs
`deleteMany` on the same predicate (the schema's `onDelete: Cascade` removes
the value rows of the deleted options).  Every thrown error is caught and
re-thrown as `Failed to delete options: <original message>`.  The successful
result carries `deletedResult.count` and the `{id, name}` metadata. -/
def deleteOptions (db : DB) (optionIds : List String) (shop : String) :
    DB × Except String (Nat × List (String × String)) :=
  if optionIds.length = 0 then
    (db, .error ("Failed to delete options: " ++ "No option IDs provided for deletion"))
  else if shop == "" then
    (db, .error ("Failed to delete options: " ++ "Shop identifier is required for deletion"))
  else
    let existingOptions :=
      db.options.filter (fun o => optionIds.contains o.id && o.shop == shop)
    let foundIds := existingOptions.map (fun o => o.id)
    let notFoundIds := optionIds.filter (fun i => !(foundIds.contains i))
    if existingOptions.length ≠ optionIds.length then
      (db, .error ("Failed to delete options: "
        ++ "Some options not found or don\x27t belong to this shop: "
        ++ String.intercalate ", " notFoundIds))
    else
      -- `deleteMany` removes the rows matching its `where` clause and reports
      -- their number, which is `existingOptions.length` (same predicate).
      (({ options := db.options.filter (fun o => !(optionIds.contains o.id && o.shop == shop)),
          values := db.values.filter (fun v => !(foundIds.contains v.variantOptionId)) } : DB),
       .ok (existingOptions.length,
            existingOptions.map (fun o => (o.id, o.name))))

/-- A value in UI shape (`app/utils/optionUtils.js` / `useOptions` store):
`{name, checked}`. -/
structure UiValue where
  name : String
  checked : Bool
deriving DecidableEq, Repr

/-- An option in UI shape as held by the `useOptions` store and built by the
`optionUtils.js` helpers: `{id, name, values, type}`.  Ids are strings (a
database cuid, or the stringified temporary `Date.now()` of an optimistic
insert); the JS falsy-id guard is modelled as the empty string. -/
structure UiOption where
  id : String
  name : String
  values : List UiValue
  type : String
deriving DecidableEq, Repr

/-- `createOptionObject(optionName, values, optionType)` from
`optionUtils.js`: fresh UI option, every value `checked: true`; `tempId`
stands for the generated `Date.now()` temporary id. -/
def createOptionObject (tempId : String) (optionName : String)
    (values : List String) (optionType : String) : UiOption :=
  { id := tempId, name := optionName,
    values := values.map (fun v => { name := v, checked := true }),
    type := optionType }

/-- `updateOptionObject(originalOption, optionName, values, optionType)` from
`optionUtils.js`: spreads the original option, replaces `name` and `type`,
and maps each new value name to `{name: v, checked: existingValue ?
existingValue.checked : true}` where `existingValue =
originalOption.values.find(ev => ev.name === v)`. -/
def updateOptionObject (originalOption : UiOption) (optionName : String)
    (values : List String) (optionType : String) : UiOption :=
  { originalOption with
    name := optionName,
    type := optionType,
    values := values.map (fun v =>
      match originalOption.values.find? (fun ev => ev.name == v) with
      | some existingValue => { name := v, checked := existingValue.checked }
      | none => { name := v, checked := true }) }

/-- A value row as delivered to the client loader, with fields the hook's
transformation may find missing (`undefined`). -/
structure ServerValue where
  value : String
  isActive : Bool
  position : Option Int
deriving DecidableEq, Repr

/-- An option row as delivered to the client loader, with the fields the
hook's transformation may find missing (`undefined`). -/
structure ServerOption where
  id : String
  name : String
  type : Option String
  position : Option Int
  isRequired : Option Bool
  values : List ServerValue
deriving DecidableEq, Repr

/-- A transformed value in the `useOptions` hook's state: `{name, checked,
position}`. -/
structure UiValueP where
  name : String
  checked : Bool
  position : Int
deriving DecidableEq, Repr

/-- A transformed option in the `useOptions` hook's state. -/
structure UiOptionP where
  id : String
  name : String
  type : String
  position : Int
  isRequired : Bool
  values : List UiValueP
deriving DecidableEq, Repr

/-- `transformOptions(serverOptions)` from `app/hooks/useOptions.js`:
`{id, name, type: option.type || "text", position: option.position || 0,
isRequired: option.isRequired || true, values: option.values.map(value =>
({name: value.value, checked: value.isActive, position: value.position ||
0}))}`. -/
def transformOptions (serverOptions : List ServerOption) : List UiOptionP :=
  serverOptions.map (fun option =>
    { id := option.id,
      name := option.name,
      type := jsOrStr option.type "text",
      position := jsOrInt option.position 0,
      isRequired := jsOrBool option.isRequired true,
      values := option.values.map (fun value =>
        { name := value.value,
          checked := value.isActive,
          position := jsOrInt value.position 0 }) })

/-- `transformLoadedOptions(loadedOptions)` from `optionUtils.js`: like
`transformOptions` but without `position`/`isRequired` on the output. -/
def transformLoadedOptions (loadedOptions : List ServerOption) : List UiOption :=
  loadedOptions.map (fun option =>
    { id := option.id,
      name := option.name,
      type := jsOrStr option.type "text",
      values := option.values.map (fun value =>
        { name := value.value, checked := value.isActive }) })

/-- `addOption(newOption)` from `app/hooks/useOptions.js`: rejects a falsy
option id (modelled by `""`); otherwise, if an entry with the same id exists,
replaces every such entry with `newOption` (`prevOptions.map`), else appends
`newOption`. -/
def addOption (prevOptions : List UiOption) (newOption : UiOption) : List UiOption :=
  if newOption.id == "" then prevOptions
  else if prevOptions.any (fun opt => opt.id == newOption.id) then
    prevOptions.map (fun opt => if opt.id == newOption.id then newOption else opt)
  else
    prevOptions ++ [newOption]

/-- `handleToggleAllValues(optionId)` from `app/hooks/useOptions.js`: for each
option with the given id, computes `allChecked = option.values.every(v =>
v.checked)` and maps every value to `{...v, checked: !allChecked}`; other
options pass through unchanged. -/
def handleToggleAllValues (currentOptions : List UiOption) (optionId : String) :
    List UiOption :=
  currentOptions.map (fun option =>
    if option.id == optionId then
      let allChecked := option.values.all (fun v => v.checked)
      { option with
        values := option.values.map (fun v => { v with checked := !allChecked }) }
    else option)

/-! ## Helper lemmas -/

theorem materializeFrom_length (vs : List ValueInput) :
    ∀ k : Nat, (materializeFrom k vs).length = vs.length := by
  induction vs with
  | nil => intro k; rfl
  | cons v rest ih => intro k; simp [materializeFrom, ih]

theorem materializeFrom_get (vs : List ValueInput) :
    ∀ (k i : Nat) (h : i < vs.length) (h2 : i < (materializeFrom k vs).length),
      (materializeFrom k vs).get ⟨i, h2⟩ = materializeValue (vs.get ⟨i, h⟩) (k + i) := by
  induction vs with
  | nil => intro k i h _; exact absurd h (by simp)
  | cons v rest ih =>
    intro k i h h2
    cases i with
    | zero => simp [materializeFrom]
    | succ n =>
      have hn : n < rest.length := by simpa using h
      have hn2 : n < (materializeFrom (k + 1) rest).length := by
        rw [materializeFrom_length]; exact hn
      simpa [materializeFrom, Nat.add_assoc, Nat.add_comm 1 n] using
        ih (k + 1) n hn hn2

theorem materializeValues_length (vs : List ValueInput) :
    (materializeValues vs).length = vs.length :=
  materializeFrom_length vs 0

theorem materializeValues_get (vs : List ValueInput) (i : Nat)
    (h : i < vs.length) (h2 : i < (materializeValues vs).length) :
    (materializeValues vs).get ⟨i, h2⟩ = materializeValue (vs.get ⟨i, h⟩) i := by
  simpa using materializeFrom_get vs 0 i h h2

/-! ## Claim C1 — atomicity of `updateOptions` -/

/-- A store with two options of shop `shopA` — `opt1` ("Color", owning one
value "Red") and `opt2` ("Size") — on which renaming `opt1` to "Size" makes
the `prisma.variantOption.update` step fail on the `(shop, name)` unique
index after the `deleteMany` of `opt1`'s values has already committed. -/
def dbNonAtomic : DB :=
  ⟨[⟨"opt1", "Color", "text", 0, true, "shopA"⟩,
    ⟨"opt2", "Size", "text", 1, true, "shopA"⟩],
   [⟨"Red", 0, true, "opt1"⟩]⟩

/-- C1: the claim says a failing `updateOptions` leaves the stored state as it
was before the call; the code runs the `deleteMany` of the old values and the
option update as two separate Prisma calls with no `$transaction`, so when
the update step fails the old values are already gone.  Concretely: on
`dbNonAtomic`, updating `opt1` to the name "Size" fails (unique `(shop,
name)`), yet the post-call store has lost `opt1`'s value "Red" and equals
neither the pre-call store nor anything with the old values. -/
theorem C1_update_failure_loses_values :
    (updateOptions dbNonAtomic "opt1"
        ⟨"Size", none, [ValueInput.str "L"]⟩).2
      = Except.error "Unique constraint failed on the fields: (shop,name)" ∧
    (updateOptions dbNonAtomic "opt1"
        ⟨"Size", none, [ValueInput.str "L"]⟩).1.values = [] ∧
    (updateOptions dbNonAtomic "opt1"
        ⟨"Size", none, [ValueInput.str "L"]⟩).1 ≠ dbNonAtomic := by
  refine ⟨rfl, by decide, by decide⟩

/-! ## Claim C3 — value materialization in `createOptions` -/

/-- C3 (counterexample): the claim says an explicit `position` supplied by an
object element is the position stored.  With input values
`[str "X", obj {value := "A", position := 0}]` the code stores position `1`
(the array index) for "A", because `value.position || index` treats the
explicit `0` as falsy — not the supplied `0` the claim requires. -/
theorem C3_explicit_position_zero_overridden :
    ((createOptions ⟨[], []⟩ "g1" "shopA"
        ⟨"Engraving", none, none, none,
          [ValueInput.str "X", ValueInput.obj "A" (some 0) none]⟩).1.values.map
      (fun v => (v.value, v.position)))
      = [("X", 0), ("A", 1)] ∧ ((1 : Int) ≠ 0) := by
  exact ⟨by decide, by decide⟩

/-- C3 (amended): each element of the `values` list may be a raw string or a
`{value, position, isActive}` object; a missing `position` defaults to the
element's array index, an explicit `position` of `0` ALSO falls back to the
array index (the code computes `value.position || index`), an explicit
nonzero `position` is the one stored, and a missing `isActive` defaults to
`true` while an explicit one is kept.  Creating an option with values
`["Red","Blue"]` and default flags on an empty store succeeds and stores
exactly two values with positions 0 and 1 and `isActive = true`. -/
theorem C3_amended_value_materialization :
    ((∀ vs : List ValueInput, (materializeValues vs).length = vs.length) ∧
     (∀ (vs : List ValueInput) (i : Nat) (s : String)
        (h : i < vs.length) (h2 : i < (materializeValues vs).length),
        vs.get ⟨i, h⟩ = ValueInput.str s →
          (materializeValues vs).get ⟨i, h2⟩ = ⟨s, i, true⟩) ∧
     (∀ (vs : List ValueInput) (i : Nat) (v : String) (a : Option Bool)
        (h : i < vs.length) (h2 : i < (materializeValues vs).length),
        vs.get ⟨i, h⟩ = ValueInput.obj v none a →
          (materializeValues vs).get ⟨i, h2⟩ = ⟨v, i, a.getD true⟩) ∧
     (∀ (vs : List ValueInput) (i : Nat) (v : String) (p : Int) (a : Option Bool)
        (h : i < vs.length) (h2 : i < (materializeValues vs).length),
        vs.get ⟨i, h⟩ = ValueInput.obj v (some p) a → p ≠ 0 →
          (materializeValues vs).get ⟨i, h2⟩ = ⟨v, p, a.getD true⟩) ∧
     (∀ (vs : List ValueInput) (i : Nat) (v : String) (a : Option Bool)
        (h : i < vs.length) (h2 : i < (materializeValues vs).length),
        vs.get ⟨i, h⟩ = ValueInput.obj v (some 0) a →
          (materializeValues vs).get ⟨i, h2⟩ = ⟨v, i, a.getD true⟩)) ∧
    (createOptions ⟨[], []⟩ "g2" "shopA"
        ⟨"Color", none, none, none, [ValueInput.str "Red", ValueInput.str "Blue"]⟩)
      = (⟨[⟨"g2", "Color", "text", 0, true, "shopA"⟩],
          [⟨"Red", 0, true, "g2"⟩, ⟨"Blue", 1, true, "g2"⟩]⟩,
         Except.ok (⟨"g2", "Color", "text", 0, true, "shopA"⟩,
           [⟨"Red", 0, true, "g2"⟩, ⟨"Blue", 1, true, "g2"⟩])) := by
  refine ⟨⟨materializeValues_length, ?_, ?_, ?_, ?_⟩, rfl⟩
  · intro vs i s h h2 hget
    rw [materializeValues_get vs i h h2, hget]
    rfl
  · intro vs i v a h h2 hget
    rw [materializeValues_get vs i h h2, hget]
    rfl
  · intro vs i v p a h h2 hget hp
    rw [materializeValues_get vs i h h2, hget]
    simp [materializeValue, jsOrInt, hp]
  · intro vs i v a h h2 hget
    rw [materializeValues_get vs i h h2, hget]
    simp [materializeValue, jsOrInt]

/-- Witness for `C3_amended_value_materialization`: its general clauses
evaluated on the concrete list `[str "Red", obj "Blue" 5 false,
obj "Lime" none none, obj "Teal" 0 (some true)]`. -/
theorem C3_amended_value_materialization_witness :
    (materializeValues [ValueInput.str "Red", ValueInput.obj "Blue" (some 5) (some false),
        ValueInput.obj "Lime" none none, ValueInput.obj "Teal" (some 0) (some true)]).length
      = 4 ∧
    (materializeValues [ValueInput.str "Red", ValueInput.obj "Blue" (some 5) (some false),
        ValueInput.obj "Lime" none none, ValueInput.obj "Teal" (some 0) (some true)]).get
        ⟨0, by decide⟩ = ⟨"Red", 0, true⟩ ∧
    (materializeValues [ValueInput.str "Red", ValueInput.obj "Blue" (some 5) (some false),
        ValueInput.obj "Lime" none none, ValueInput.obj "Teal" (some 0) (some true)]).get
        ⟨1, by decide⟩ = ⟨"Blue", 5, false⟩ ∧
    (materializeValues [ValueInput.str "Red", ValueInput.obj "Blue" (some 5) (some false),
        ValueInput.obj "Lime" none none, ValueInput.obj "Teal" (some 0) (some true)]).get
        ⟨2, by decide⟩ = ⟨"Lime", 2, true⟩ ∧
    (materializeValues [ValueInput.str "Red", ValueInput.obj "Blue" (some 5) (some false),
        ValueInput.obj "Lime" none none, ValueInput.obj "Teal" (some 0) (some true)]).get
        ⟨3, by decide⟩ = ⟨"Teal", 3, true⟩ := by
  refine ⟨C3_amended_value_materialization.1.1 _, ?_, ?_, ?_, ?_⟩
  · exact C3_amended_value_materialization.1.2.1 _ 0 "Red" (by decide) (by decide) rfl
  · exact C3_amended_value_materialization.1.2.2.2.1 _ 1 "Blue" 5 (some false)
      (by decide) (by decide) rfl (by decide)
  · exact C3_amended_value_materialization.1.2.2.1 _ 2 "Lime" none
      (by decide) (by decide) rfl
  · exact C3_amended_value_materialization.1.2.2.2.2 _ 3 "Teal" (some true)
      (by decide) (by decide) rfl

/-! ## Claim C2 — `deleteOptions` verification -/

theorem bool_eq_of_iff {a b : Bool} (h : a = true ↔ b = true) : a = b := by
  cases a <;> cases b <;> simp_all

theorem contains_iff_mem {l : List String} {a : String} : l.contains a = true ↔ a ∈ l := by
  simp [List.contains, List.elem_iff]

theorem foundIds_mem (db : DB) (ids : List String) (shop : String) (x : String) :
    x ∈ (db.options.filter (fun o => ids.contains o.id && o.shop == shop)).map (fun o => o.id)
      ↔ (x ∈ ids ∧ (db.options.any (fun o => o.id == x && o.shop == shop)) = true) := by
  simp only [List.mem_map, List.mem_filter, List.any_eq_true, Bool.and_eq_true,
    beq_iff_eq, List.contains, List.elem_iff]
  constructor
  · rintro ⟨o, ⟨ho, hin, hshop⟩, rfl⟩
    exact ⟨hin, o, ho, rfl, hshop⟩
  · rintro ⟨hin, o, ho, rfl, hshop⟩
    exact ⟨o, ⟨ho, hin, hshop⟩, rfl⟩

theorem foundIds_nodup (db : DB) (ids : List String) (shop : String)
    (hdb : (db.options.map (fun o => o.id)).Nodup) :
    ((db.options.filter (fun o => ids.contains o.id && o.shop == shop)).map
      (fun o => o.id)).Nodup :=
  ((List.filter_sublist db.options).map (fun o => o.id)).nodup hdb

theorem deleteOptions_eval_ok (db : DB) (ids : List String) (shop : String)
    (h0 : ¬ ids.length = 0) (hs : (shop == "") = false)
    (he : (db.options.filter (fun o => ids.contains o.id && o.shop == shop)).length
      = ids.length) :
    deleteOptions db ids shop =
      (⟨db.options.filter (fun o => !(ids.contains o.id && o.shop == shop)),
        db.values.filter (fun v =>
          !(((db.options.filter (fun o => ids.contains o.id && o.shop == shop)).map
              (fun o => o.id)).contains v.variantOptionId))⟩,
       Except.ok
         ((db.options.filter (fun o => ids.contains o.id && o.shop == shop)).length,
          (db.options.filter (fun o => ids.contains o.id && o.shop == shop)).map
            (fun o => (o.id, o.name)))) := by
  unfold deleteOptions
  rw [if_neg h0, if_neg (by simp [hs]), if_neg (fun hc => hc he)]

theorem deleteOptions_eval_err (db : DB) (ids : List String) (shop : String)
    (h0 : ¬ ids.length = 0) (hs : (shop == "") = false)
    (he : ¬ (db.options.filter (fun o => ids.contains o.id && o.shop == shop)).length
      = ids.length) :
    deleteOptions db ids shop =
      (db, Except.error ("Failed to delete options: "
        ++ "Some options not found or don\x27t belong to this shop: "
        ++ String.intercalate ", " (ids.filter (fun i =>
            !(((db.options.filter (fun o => ids.contains o.id && o.shop == shop)).map
                (fun o => o.id)).contains i))))) := by
  unfold deleteOptions
  rw [if_neg h0, if_neg (by simp [hs]), if_pos he]

/-- C2 (counterexample): with the store holding only option "A" of shopX, the
claim says `deleteOptions ["A","A"] shopX` — a non-empty list every element of
which belongs to shopX — deletes option "A" and returns its metadata.  The
code compares `existingOptions.length` (1) against `idsArray.length` (2),
throws the not-found error with an EMPTY unmatched-id list, and deletes
nothing. -/
theorem C2_duplicate_ids_rejected :
    (deleteOptions ⟨[⟨"A", "Color", "text", 0, true, "shopX"⟩], []⟩
        ["A", "A"] "shopX").2
      = Except.error ("Failed to delete options: "
          ++ "Some options not found or don\x27t belong to this shop: ") ∧
    (deleteOptions ⟨[⟨"A", "Color", "text", 0, true, "shopX"⟩], []⟩
        ["A", "A"] "shopX").1
      = ⟨[⟨"A", "Color", "text", 0, true, "shopX"⟩], []⟩ := by
  exact ⟨rfl, by decide⟩

/-- C2 (amended): for every non-empty list of DISTINCT option ids and every
non-empty shop identifier, over a store whose option ids are unique (the
primary key), `deleteOptions` first verifies every id belongs to the shop.
If some id is missing or belongs to another shop it fails with the error
naming exactly the unmatched ids and the store is unchanged; otherwise it
deletes exactly the named options, cascades to their values, and returns the
count (= the number of ids) and the `{id, name}` metadata of the removed
options. -/
theorem C2_amended_delete_verification :
    ∀ (db : DB) (ids : List String) (shop : String),
      ids ≠ [] → ids.Nodup → shop ≠ "" →
      (db.options.map (fun o => o.id)).Nodup →
      ((ids.filter (fun i => !(db.options.any (fun o => o.id == i && o.shop == shop))) ≠ [] →
         (deleteOptions db ids shop).1 = db ∧
         (deleteOptions db ids shop).2 = Except.error
           ("Failed to delete options: "
             ++ "Some options not found or don\x27t belong to this shop: "
             ++ String.intercalate ", "
                 (ids.filter (fun i =>
                   !(db.options.any (fun o => o.id == i && o.shop == shop)))))) ∧
       (ids.filter (fun i => !(db.options.any (fun o => o.id == i && o.shop == shop))) = [] →
         (deleteOptions db ids shop).2
           = Except.ok (ids.length,
               (db.options.filter (fun o => ids.contains o.id && o.shop == shop)).map
                 (fun o => (o.id, o.name))) ∧
         (∀ o : VariantOption, o ∈ (deleteOptions db ids shop).1.options ↔
            (o ∈ db.options ∧ ¬ o.id ∈ ids)) ∧
         (∀ v : VariantOptionValue, v ∈ (deleteOptions db ids shop).1.values ↔
            (v ∈ db.values ∧ ¬ v.variantOptionId ∈ ids)))) := by
  intro db ids shop hne hnd hshop hdb
  have h0 : ¬ ids.length = 0 := fun h => hne (List.length_eq_zero.mp h)
  have hs : (shop == "") = false := beq_eq_false_iff_ne.mpr hshop
  have hfoundN := foundIds_nodup db ids shop hdb
  constructor
  · -- error case: some id has no matching option of this shop
    intro hbad
    obtain ⟨x, hx⟩ := List.exists_mem_of_ne_nil _ hbad
    have hx' := List.mem_filter.mp hx
    have hxin : x ∈ ids := hx'.1
    have hxown : (db.options.any (fun o => o.id == x && o.shop == shop)) = false := by
      simpa using hx'.2
    have hxnotF : x ∉ (db.options.filter
        (fun o => ids.contains o.id && o.shop == shop)).map (fun o => o.id) := by
      intro hmem
      have := (foundIds_mem db ids shop x).mp hmem
      rw [hxown] at this
      exact absurd this.2 (by simp)
    have hsub : ((db.options.filter (fun o => ids.contains o.id && o.shop == shop)).map
        (fun o => o.id)).toFinset ⊆ ids.toFinset := by
      intro y hy
      rw [List.mem_toFinset] at hy ⊢
      exact ((foundIds_mem db ids shop y).mp hy).1
    have hss : ((db.options.filter (fun o => ids.contains o.id && o.shop == shop)).map
        (fun o => o.id)).toFinset ⊂ ids.toFinset := by
      refine ⟨hsub, fun hsup => hxnotF ?_⟩
      have := hsup (List.mem_toFinset.mpr hxin)
      exact List.mem_toFinset.mp this
    have hlt := Finset.card_lt_card hss
    rw [List.toFinset_card_of_nodup hfoundN, List.toFinset_card_of_nodup hnd,
      List.length_map] at hlt
    have hne' : ¬ (db.options.filter
        (fun o => ids.contains o.id && o.shop == shop)).length = ids.length :=
      Nat.ne_of_lt hlt
    rw [deleteOptions_eval_err db ids shop h0 hs hne']
    refine ⟨rfl, ?_⟩
    have hfc : ids.filter (fun i =>
        !(((db.options.filter (fun o => ids.contains o.id && o.shop == shop)).map
            (fun o => o.id)).contains i))
        = ids.filter (fun i => !(db.options.any (fun o => o.id == i && o.shop == shop))) := by
      apply List.filter_congr
      intro i hi
      have : (((db.options.filter (fun o => ids.contains o.id && o.shop == shop)).map
          (fun o => o.id)).contains i)
          = (db.options.any (fun o => o.id == i && o.shop == shop)) := by
        apply bool_eq_of_iff
        rw [show ((((db.options.filter (fun o => ids.contains o.id && o.shop == shop)).map
            (fun o => o.id)).contains i) = true) ↔
            i ∈ ((db.options.filter (fun o => ids.contains o.id && o.shop == shop)).map
            (fun o => o.id)) from by simp [List.contains, List.elem_iff]]
        rw [foundIds_mem db ids shop i]
        simp [hi]
      rw [this]
    rw [hfc]
  · -- success case: every id has a matching option of this shop
    intro hgood
    have hall : ∀ i ∈ ids, (db.options.any (fun o => o.id == i && o.shop == shop)) = true := by
      intro i hi
      have := List.filter_eq_nil_iff.mp hgood i hi
      simpa using this
    have hmemF : ∀ x, x ∈ ((db.options.filter
        (fun o => ids.contains o.id && o.shop == shop)).map (fun o => o.id)) ↔ x ∈ ids := by
      intro x
      rw [foundIds_mem db ids shop x]
      exact ⟨fun h => h.1, fun h => ⟨h, hall x h⟩⟩
    have hperm : ((db.options.filter (fun o => ids.contains o.id && o.shop == shop)).map
        (fun o => o.id)).Perm ids := by
      refine List.perm_of_nodup_nodup_toFinset_eq hfoundN hnd ?_
      ext x
      simp only [List.mem_toFinset]
      exact hmemF x
    have hlen : (db.options.filter (fun o => ids.contains o.id && o.shop == shop)).length
        = ids.length := by
      rw [← List.length_map (db.options.filter
        (fun o => ids.contains o.id && o.shop == shop)) (fun o => o.id)]
      exact hperm.length_eq
    rw [deleteOptions_eval_ok db ids shop h0 hs hlen]
    refine ⟨by rw [hlen], ?_, ?_⟩
    · -- options membership
      intro o
      simp only [List.mem_filter, Bool.not_eq_true']
      constructor
      · rintro ⟨ho, hpred⟩
        refine ⟨ho, fun hinids => ?_⟩
        have hown := hall o.id hinids
        simp only [List.any_eq_true, Bool.and_eq_true, beq_iff_eq] at hown
        obtain ⟨o2, ho2, hid2, hshop2⟩ := hown
        have : o2 = o := List.inj_on_of_nodup_map hdb ho2 ho hid2
        subst this
        have : (ids.contains o2.id && o2.shop == shop) = true := by
          simp [List.contains, List.elem_iff, hinids, hid2 ▸ hinids, hshop2]
        rw [this] at hpred
        exact absurd hpred (by simp)
      · rintro ⟨ho, hnot⟩
        refine ⟨ho, ?_⟩
        have hcf : ids.contains o.id = false :=
          Bool.eq_false_iff.mpr (fun hc => hnot (contains_iff_mem.mp hc))
        rw [hcf, Bool.false_and]
    · -- values membership
      intro v
      simp only [List.mem_filter, Bool.not_eq_true']
      constructor
      · rintro ⟨hv, hpred⟩
        refine ⟨hv, fun hinids => ?_⟩
        have : v.variantOptionId ∈ ((db.options.filter
            (fun o => ids.contains o.id && o.shop == shop)).map (fun o => o.id)) :=
          (hmemF v.variantOptionId).mpr hinids
        have hc : (((db.options.filter (fun o => ids.contains o.id && o.shop == shop)).map
            (fun o => o.id)).contains v.variantOptionId) = true :=
          contains_iff_mem.mpr this
        rw [hc] at hpred
        exact absurd hpred (by simp)
      · rintro ⟨hv, hnot⟩
        refine ⟨hv, ?_⟩
        have hnm : v.variantOptionId ∉ ((db.options.filter
            (fun o => ids.contains o.id && o.shop == shop)).map (fun o => o.id)) :=
          fun h => hnot ((hmemF v.variantOptionId).mp h)
        exact Bool.eq_false_iff.mpr (fun hc => hnm (contains_iff_mem.mp hc))

/-- Witness for `C2_amended_delete_verification`: the spec's own example —
`deleteOptions ["A","B"] shopX` when "B" belongs to shopY fails naming "B"
and leaves the store unchanged — and the success branch on `["A"]`. -/
theorem C2_amended_delete_verification_witness :
    (deleteOptions ⟨[⟨"A", "Color", "text", 0, true, "shopX"⟩,
        ⟨"B", "Size", "text", 1, true, "shopY"⟩], []⟩ ["A", "B"] "shopX").1
      = ⟨[⟨"A", "Color", "text", 0, true, "shopX"⟩,
          ⟨"B", "Size", "text", 1, true, "shopY"⟩], []⟩ ∧
    (deleteOptions ⟨[⟨"A", "Color", "text", 0, true, "shopX"⟩,
        ⟨"B", "Size", "text", 1, true, "shopY"⟩], []⟩ ["A", "B"] "shopX").2
      = Except.error ("Failed to delete options: "
          ++ "Some options not found or don\x27t belong to this shop: B") ∧
    (deleteOptions ⟨[⟨"A", "Color", "text", 0, true, "shopX"⟩,
        ⟨"B", "Size", "text", 1, true, "shopY"⟩], []⟩ ["A"] "shopX").2
      = Except.ok (1, [("A", "Color")]) := by
  have herr := (C2_amended_delete_verification
    ⟨[⟨"A", "Color", "text", 0, true, "shopX"⟩,
      ⟨"B", "Size", "text", 1, true, "shopY"⟩], []⟩ ["A", "B"] "shopX"
    (by decide) (by decide) (by decide) (by decide)).1 (by decide)
  have hok := (C2_amended_delete_verification
    ⟨[⟨"A", "Color", "text", 0, true, "shopX"⟩,
      ⟨"B", "Size", "text", 1, true, "shopY"⟩], []⟩ ["A"] "shopX"
    (by decide) (by decide) (by decide) (by decide)).2 (by decide)
  refine ⟨herr.1, herr.2.trans rfl, hok.1.trans rfl⟩

/-! ## Claim C4 — `getOptions` ordering -/

instance : IsTotal VariantOption (fun a b => a.position ≤ b.position) :=
  ⟨fun a b => Int.le_total a.position b.position⟩

instance : IsTrans VariantOption (fun a b => a.position ≤ b.position) :=
  ⟨fun _ _ _ h1 h2 => le_trans h1 h2⟩

instance : IsTotal VariantOptionValue (fun a b => a.position ≤ b.position) :=
  ⟨fun a b => Int.le_total a.position b.position⟩

instance : IsTrans VariantOptionValue (fun a b => a.position ≤ b.position) :=
  ⟨fun _ _ _ h1 h2 => le_trans h1 h2⟩

/-- C4: for every store and shop, `getOptions` returns exactly the options
belonging to that shop (a permutation of the shop's rows, so independent of
insertion order), listed in ascending `position` order, and each returned
option carries exactly its own value rows in ascending `position` order. -/
theorem C4_getOptions_sorted :
    ∀ (db : DB) (shop : String),
      ((getOptions db shop).map Prod.fst).Perm
        (db.options.filter (fun o => o.shop == shop)) ∧
      ((getOptions db shop).map (fun p => p.1.position)).Sorted (· ≤ ·) ∧
      (∀ p ∈ getOptions db shop,
        p.2.Perm (db.values.filter (fun v => v.variantOptionId == p.1.id)) ∧
        (p.2.map (fun v => v.position)).Sorted (· ≤ ·)) := by
  intro db shop
  refine ⟨?_, ?_, ?_⟩
  · have h1 : (getOptions db shop).map Prod.fst
        = List.insertionSort (fun a b => a.position ≤ b.position)
            (db.options.filter (fun o => o.shop == shop)) := by
      simp only [getOptions, List.map_map]
      exact List.map_id _
    rw [h1]
    exact List.perm_insertionSort _ _
  · have hs := List.sorted_insertionSort (fun a b => a.position ≤ b.position)
      (db.options.filter (fun o => o.shop == shop))
    have h2 : (getOptions db shop).map (fun p => p.1.position)
        = (List.insertionSort (fun a b => a.position ≤ b.position)
            (db.options.filter (fun o => o.shop == shop))).map
              (fun o => o.position) := by
      simp only [getOptions, List.map_map]
      rfl
    rw [h2]
    exact List.pairwise_map.mpr hs
  · intro p hp
    simp only [getOptions, List.mem_map] at hp
    obtain ⟨o, _, rfl⟩ := hp
    refine ⟨List.perm_insertionSort _ _, ?_⟩
    have hv := List.sorted_insertionSort (fun a b => a.position ≤ b.position)
      (db.values.filter (fun v => v.variantOptionId == o.id))
    exact List.pairwise_map.mpr hv

/-- Witness for `C4_getOptions_sorted`: a concrete store with two shopS
options inserted out of position order and two values of `o1` inserted out of
order; `getOptions` lists them sorted, and clause 3 applied to the returned
entry of `o1` yields its sorted values. -/
theorem C4_getOptions_sorted_witness :
    ((⟨"o1", "Alpha", "text", 1, true, "shopS"⟩, [⟨"v1", 3, true, "o1"⟩, ⟨"v2", 5, true, "o1"⟩])
        ∈ getOptions ⟨[⟨"o2", "Beta", "text", 2, true, "shopS"⟩,
            ⟨"o1", "Alpha", "text", 1, true, "shopS"⟩],
           [⟨"v2", 5, true, "o1"⟩, ⟨"v1", 3, true, "o1"⟩]⟩ "shopS") ∧
    ((⟨"o1", "Alpha", "text", 1, true, "shopS"⟩,
        [⟨"v1", 3, true, "o1"⟩, ⟨"v2", 5, true, "o1"⟩]) :
          VariantOption × List VariantOptionValue).2.Perm
      (([⟨"v2", 5, true, "o1"⟩, ⟨"v1", 3, true, "o1"⟩] :
          List VariantOptionValue).filter (fun v => v.variantOptionId == "o1")) ∧
    ((([⟨"v1", 3, true, "o1"⟩, ⟨"v2", 5, true, "o1"⟩] :
        List VariantOptionValue).map (fun v => v.position)).Sorted (· ≤ ·)) := by
  have h := (C4_getOptions_sorted
    ⟨[⟨"o2", "Beta", "text", 2, true, "shopS"⟩,
      ⟨"o1", "Alpha", "text", 1, true, "shopS"⟩],
     [⟨"v2", 5, true, "o1"⟩, ⟨"v1", 3, true, "o1"⟩]⟩ "shopS").2.2
    (⟨"o1", "Alpha", "text", 1, true, "shopS"⟩,
     [⟨"v1", 3, true, "o1"⟩, ⟨"v2", 5, true, "o1"⟩]) (by decide)
  exact ⟨by decide, h.1, h.2⟩

/-! ## Claim C5 — `updateOptionObject` checked-state preservation -/

/-- The per-name mapping inside `updateOptionObject`: reuse the checked state
of a same-named original value when `find?` locates one, else default to
checked. -/
def refreshValue (originalOption : UiOption) (v : String) : UiValue :=
  match originalOption.values.find? (fun ev => ev.name == v) with
  | some existingValue => ⟨v, existingValue.checked⟩
  | none => ⟨v, true⟩

theorem updateOptionObject_values_eq (originalOption : UiOption)
    (optionName : String) (values : List String) (optionType : String) :
    (updateOptionObject originalOption optionName values optionType).values
      = values.map (refreshValue originalOption) := rfl

theorem refreshValue_name (originalOption : UiOption) (v : String) :
    (refreshValue originalOption v).name = v := by
  unfold refreshValue
  cases originalOption.values.find? (fun ev => ev.name == v) <;> rfl

theorem refreshValue_of_found (originalOption : UiOption) (v : String)
    (ev : UiValue)
    (h : originalOption.values.find? (fun e => e.name == v) = some ev) :
    refreshValue originalOption v = ⟨v, ev.checked⟩ := by
  unfold refreshValue
  rw [h]

theorem refreshValue_of_not_found (originalOption : UiOption) (v : String)
    (h : originalOption.values.find? (fun e => e.name == v) = none) :
    refreshValue originalOption v = ⟨v, true⟩ := by
  unfold refreshValue
  rw [h]

theorem updateOptionObject_get (originalOption : UiOption) (optionName : String)
    (values : List String) (optionType : String) (i : Nat)
    (h : i < values.length)
    (h2 : i < (updateOptionObject originalOption optionName values optionType).values.length) :
    (updateOptionObject originalOption optionName values optionType).values.get ⟨i, h2⟩
      = refreshValue originalOption (values.get ⟨i, h⟩) := by
  simp only [updateOptionObject_values_eq, List.get_eq_getElem, List.getElem_map]

/-- C5: editing an option to a new list of value names keeps, for each new
name, the checked state of the same-named original value when one exists
(`find?` picks it), defaults new names to `checked = true`, and produces
exactly the new names in order — so names absent from the new list do not
appear in the result. -/
theorem C5_updateOptionObject_checked :
    ∀ (originalOption : UiOption) (optionName : String) (values : List String)
      (optionType : String),
      ((updateOptionObject originalOption optionName values optionType).values.map
          (fun w => w.name)) = values ∧
      (∀ (i : Nat) (h : i < values.length)
          (h2 : i < (updateOptionObject originalOption optionName values optionType).values.length)
          (ev : UiValue),
          originalOption.values.find? (fun e => e.name == values.get ⟨i, h⟩) = some ev →
            ((updateOptionObject originalOption optionName values optionType).values.get
              ⟨i, h2⟩).checked = ev.checked) ∧
      (∀ (i : Nat) (h : i < values.length)
          (h2 : i < (updateOptionObject originalOption optionName values optionType).values.length),
          (∀ e ∈ originalOption.values, e.name ≠ values.get ⟨i, h⟩) →
            ((updateOptionObject originalOption optionName values optionType).values.get
              ⟨i, h2⟩).checked = true) ∧
      (∀ w ∈ (updateOptionObject originalOption optionName values optionType).values,
          w.name ∈ values) := by
  intro originalOption optionName values optionType
  refine ⟨?_, ?_, ?_, ?_⟩
  · rw [updateOptionObject_values_eq, List.map_map]
    induction values with
    | nil => rfl
    | cons a t ih =>
      simp only [List.map_cons, List.cons.injEq]
      exact ⟨refreshValue_name originalOption a, ih⟩
  · intro i h h2 ev hfind
    rw [updateOptionObject_get originalOption optionName values optionType i h h2,
      refreshValue_of_found originalOption _ ev hfind]
  · intro i h h2 hnone
    have hfind : originalOption.values.find? (fun e => e.name == values.get ⟨i, h⟩) = none :=
      List.find?_eq_none.mpr (fun e he => by simpa using hnone e he)
    rw [updateOptionObject_get originalOption optionName values optionType i h h2,
      refreshValue_of_not_found originalOption _ hfind]
  · intro w hw
    rw [updateOptionObject_values_eq] at hw
    obtain ⟨v, hv, rfl⟩ := List.mem_map.mp hw
    rw [refreshValue_name originalOption v]
    exact hv

/-- Witness for `C5_updateOptionObject_checked`: the spec's example — editing
an option with values Red (checked) and Blue (unchecked) to `["Red","Green"]`
keeps Red checked, defaults Green to checked, and drops Blue. -/
theorem C5_updateOptionObject_checked_witness :
    ((updateOptionObject ⟨"1", "Color", [⟨"Red", true⟩, ⟨"Blue", false⟩], "text"⟩
        "Color" ["Red", "Green"] "text").values.map (fun w => w.name))
      = ["Red", "Green"] ∧
    ((updateOptionObject ⟨"1", "Color", [⟨"Red", true⟩, ⟨"Blue", false⟩], "text"⟩
        "Color" ["Red", "Green"] "text").values.get ⟨0, by decide⟩).checked = true ∧
    ((updateOptionObject ⟨"1", "Color", [⟨"Red", true⟩, ⟨"Blue", false⟩], "text"⟩
        "Color" ["Red", "Green"] "text").values.get ⟨1, by decide⟩).checked = true := by
  have h := C5_updateOptionObject_checked
    ⟨"1", "Color", [⟨"Red", true⟩, ⟨"Blue", false⟩], "text"⟩ "Color" ["Red", "Green"] "text"
  refine ⟨h.1, ?_, ?_⟩
  · exact h.2.1 0 (by decide) (by decide) ⟨"Red", true⟩ (by decide)
  · exact h.2.2.1 1 (by decide) (by decide) (by decide)

/-! ## Claim C6 — `addOption` upsert -/

theorem addOption_of_absent (prevOptions : List UiOption) (newOption : UiOption)
    (hid : newOption.id ≠ "")
    (habs : ∀ p ∈ prevOptions, p.id ≠ newOption.id) :
    addOption prevOptions newOption = prevOptions ++ [newOption] := by
  unfold addOption
  rw [if_neg (by simp [hid]), if_neg]
  simp only [List.any_eq_true, not_exists]
  intro p
  rintro ⟨hp, hbeq⟩
  exact habs p hp (beq_iff_eq.mp hbeq)

theorem addOption_of_present (prevOptions : List UiOption) (newOption : UiOption)
    (hid : newOption.id ≠ "")
    (hpres : ∃ p ∈ prevOptions, p.id = newOption.id) :
    addOption prevOptions newOption
      = prevOptions.map (fun opt => if opt.id == newOption.id then newOption else opt) := by
  unfold addOption
  obtain ⟨p, hp, hpe⟩ := hpres
  rw [if_neg (by simp [hid]), if_pos]
  exact List.any_eq_true.mpr ⟨p, hp, beq_iff_eq.mpr hpe⟩

/-- C6: calling `addOption` twice with options sharing one (non-empty) id
leaves, on a store that held at most one entry with that id, exactly one
entry with the id, equal to the second call's argument, all other entries
untouched; and in general a single `addOption` appends when the id is absent
and replaces the same-id entry when present. -/
theorem C6_addOption_idempotent :
    ∀ (prevOptions : List UiOption) (o1 o2 : UiOption),
      o1.id = o2.id → o2.id ≠ "" →
      ((prevOptions.countP (fun o => o.id == o2.id) ≤ 1 →
         ((addOption (addOption prevOptions o1) o2).countP (fun o => o.id == o2.id) = 1 ∧
          (∀ o ∈ addOption (addOption prevOptions o1) o2, o.id = o2.id → o = o2) ∧
          (addOption (addOption prevOptions o1) o2).filter (fun o => !(o.id == o2.id))
            = prevOptions.filter (fun o => !(o.id == o2.id)))) ∧
       ((∀ p ∈ prevOptions, p.id ≠ o2.id) →
         addOption prevOptions o2 = prevOptions ++ [o2]) ∧
       ((∃ p ∈ prevOptions, p.id = o2.id) →
         (addOption prevOptions o2).length = prevOptions.length ∧
         (∀ p ∈ addOption prevOptions o2,
           p = o2 ∨ (p ∈ prevOptions ∧ p.id ≠ o2.id)))) := by
  intro prevOptions o1 o2 hid12 hid2
  have hid1 : o1.id ≠ "" := hid12 ▸ hid2
  refine ⟨?_, ?_, ?_⟩
  · intro hle
    by_cases hpres : ∃ p ∈ prevOptions, p.id = o2.id
    · -- id already present: both calls replace in place
      have h1 : addOption prevOptions o1
          = prevOptions.map (fun opt => if opt.id == o1.id then o1 else opt) :=
        addOption_of_present prevOptions o1 hid1 (by rw [hid12]; exact hpres)
      have hpres2 : ∃ p ∈ addOption prevOptions o1, p.id = o2.id := by
        obtain ⟨p, hp, hpe⟩ := hpres
        refine ⟨if p.id == o1.id then o1 else p, ?_, ?_⟩
        · rw [h1]; exact List.mem_map.mpr ⟨p, hp, rfl⟩
        · rw [if_pos (beq_iff_eq.mpr (hpe.trans hid12.symm))]; exact hid12
      have h2 : addOption (addOption prevOptions o1) o2
          = (addOption prevOptions o1).map
              (fun opt => if opt.id == o2.id then o2 else opt) :=
        addOption_of_present _ o2 hid2 hpres2
      have hcomp : addOption (addOption prevOptions o1) o2
          = prevOptions.map (fun opt => if opt.id == o2.id then o2 else opt) := by
        rw [h2, h1, List.map_map]
        apply List.map_congr_left
        intro a _
        simp only [Function.comp]
        by_cases ha : a.id = o2.id
        · rw [if_pos (beq_iff_eq.mpr (ha.trans hid12.symm)),
            if_pos (beq_iff_eq.mpr hid12), if_pos (beq_iff_eq.mpr ha)]
        · rw [if_neg (fun hc => ha ((beq_iff_eq.mp hc).trans hid12)),
            if_neg (fun hc => ha (beq_iff_eq.mp hc))]
      have hcnt1 : prevOptions.countP (fun o => o.id == o2.id) = 1 := by
        refine Nat.le_antisymm hle ?_
        obtain ⟨p, hp, hpe⟩ := hpres
        exact List.countP_pos_iff.mpr ⟨p, hp, beq_iff_eq.mpr hpe⟩
      refine ⟨?_, ?_, ?_⟩
      · rw [hcomp, List.countP_map, ← hcnt1]
        apply List.countP_congr
        intro a _
        simp only [Function.comp]
        by_cases ha : a.id = o2.id
        · rw [if_pos (beq_iff_eq.mpr ha)]
          simp [ha]
        · rw [if_neg (fun hc => ha (beq_iff_eq.mp hc))]
      · intro o ho hoid
        rw [hcomp] at ho
        obtain ⟨q, hq, rfl⟩ := List.mem_map.mp ho
        by_cases hqid : q.id = o2.id
        · rw [if_pos (beq_iff_eq.mpr hqid)]
        · rw [if_neg (fun hc => hqid (beq_iff_eq.mp hc))] at hoid ⊢
          exact absurd hoid hqid
      · rw [hcomp, List.filter_map]
        have hfc : prevOptions.filter
            ((fun o => !(o.id == o2.id)) ∘ (fun opt => if opt.id == o2.id then o2 else opt))
            = prevOptions.filter (fun o => !(o.id == o2.id)) := by
          apply List.filter_congr
          intro a _
          simp only [Function.comp]
          by_cases ha : a.id = o2.id
          · rw [if_pos (beq_iff_eq.mpr ha)]
            simp [ha]
          · rw [if_neg (fun hc => ha (beq_iff_eq.mp hc))]
        rw [hfc]
        have hidm : ∀ a ∈ prevOptions.filter (fun o => !(o.id == o2.id)),
            (if (a.id == o2.id) = true then o2 else a) = a := by
          intro a ha'
          have hmf := (List.mem_filter.mp ha').2
          refine if_neg (fun hc => ?_)
          rw [hc] at hmf
          exact absurd hmf (by decide)
        rw [List.map_congr_left hidm, List.map_id']
    · -- id absent: first call appends o1, second replaces it with o2
      push_neg at hpres
      have habs1 : ∀ p ∈ prevOptions, p.id ≠ o1.id := by
        intro p hp
        rw [hid12]
        exact hpres p hp
      have h1 : addOption prevOptions o1 = prevOptions ++ [o1] :=
        addOption_of_absent prevOptions o1 hid1 habs1
      have hpres2 : ∃ p ∈ addOption prevOptions o1, p.id = o2.id := by
        refine ⟨o1, ?_, hid12⟩
        rw [h1]
        exact List.mem_append.mpr (Or.inr (by simp))
      have h2 := addOption_of_present _ o2 hid2 hpres2
      have hcomp : addOption (addOption prevOptions o1) o2 = prevOptions ++ [o2] := by
        rw [h2, h1, List.map_append]
        congr 1
        · have hidm : ∀ a ∈ prevOptions,
              (if (a.id == o2.id) = true then o2 else a) = a := by
            intro a ha'
            exact if_neg (fun hc => hpres a ha' (beq_iff_eq.mp hc))
          rw [List.map_congr_left hidm, List.map_id']
        · simp only [List.map_cons, List.map_nil]
          rw [if_pos (beq_iff_eq.mpr hid12)]
      have hcnt0 : prevOptions.countP (fun o => o.id == o2.id) = 0 :=
        List.countP_eq_zero.mpr (fun a ha => by simp [beq_eq_false_iff_ne.mpr (hpres a ha)])
      refine ⟨?_, ?_, ?_⟩
      · rw [hcomp, List.countP_append, hcnt0, List.countP_cons]
        simp
      · intro o ho hoid
        rw [hcomp] at ho
        rcases List.mem_append.mp ho with hmem | hmem
        · exact absurd hoid (hpres o hmem)
        · simpa using hmem
      · rw [hcomp, List.filter_append]
        have : ([o2].filter (fun o => !(o.id == o2.id))) = [] := by
          simp
        rw [this, List.append_nil]
  · exact addOption_of_absent prevOptions o2 hid2
  · intro hpres
    have h1 : addOption prevOptions o2
        = prevOptions.map (fun opt => if opt.id == o2.id then o2 else opt) :=
      addOption_of_present prevOptions o2 hid2 hpres
    constructor
    · rw [h1, List.length_map]
    · intro p hp
      rw [h1] at hp
      obtain ⟨q, hq, rfl⟩ := List.mem_map.mp hp
      by_cases hqid : q.id = o2.id
      · left; rw [if_pos (beq_iff_eq.mpr hqid)]
      · right
        rw [if_neg (by simp [hqid])]
        exact ⟨hq, hqid⟩

/-- Witness for `C6_addOption_idempotent`: adding id "9" twice to a store
holding one unrelated option leaves exactly one entry with id "9", equal to
the second argument, and the unrelated option untouched. -/
theorem C6_addOption_idempotent_witness :
    ((addOption (addOption [⟨"7", "Size", [], "text"⟩]
        ⟨"9", "Color", [⟨"Red", true⟩], "text"⟩)
        ⟨"9", "Colour", [⟨"Blue", false⟩], "text"⟩).countP
      (fun o => o.id == "9") = 1) ∧
    (∀ o ∈ addOption (addOption [⟨"7", "Size", [], "text"⟩]
        ⟨"9", "Color", [⟨"Red", true⟩], "text"⟩)
        ⟨"9", "Colour", [⟨"Blue", false⟩], "text"⟩,
      o.id = "9" → o = ⟨"9", "Colour", [⟨"Blue", false⟩], "text"⟩) ∧
    ((addOption (addOption [⟨"7", "Size", [], "text"⟩]
        ⟨"9", "Color", [⟨"Red", true⟩], "text"⟩)
        ⟨"9", "Colour", [⟨"Blue", false⟩], "text"⟩).filter
      (fun o => !(o.id == "9"))
      = ([⟨"7", "Size", [], "text"⟩] : List UiOption).filter (fun o => !(o.id == "9"))) := by
  have h := (C6_addOption_idempotent [⟨"7", "Size", [], "text"⟩]
    ⟨"9", "Color", [⟨"Red", true⟩], "text"⟩
    ⟨"9", "Colour", [⟨"Blue", false⟩], "text"⟩ rfl (by decide)).1 (by decide)
  exact ⟨h.1, h.2.1, h.2.2⟩

/-! ## Claim C7 — `handleToggleAllValues` select-all semantics -/

/-- The per-option body of `handleToggleAllValues`. -/
def toggleAllIn (optionId : String) (option : UiOption) : UiOption :=
  if option.id == optionId then
    let allChecked := option.values.all (fun v => v.checked)
    { option with
      values := option.values.map (fun v => { v with checked := !allChecked }) }
  else option

theorem handleToggleAllValues_eq_map (currentOptions : List UiOption) (optionId : String) :
    handleToggleAllValues currentOptions optionId
      = currentOptions.map (toggleAllIn optionId) := rfl

theorem handleToggleAllValues_get (l : List UiOption) (optionId : String) (i : Nat)
    (h : i < l.length) (h2 : i < (handleToggleAllValues l optionId).length) :
    (handleToggleAllValues l optionId).get ⟨i, h2⟩
      = toggleAllIn optionId (l.get ⟨i, h⟩) := by
  simp only [handleToggleAllValues_eq_map, List.get_eq_getElem, List.getElem_map]

theorem toggleAllIn_of_ne (optionId : String) (o : UiOption) (h : o.id ≠ optionId) :
    toggleAllIn optionId o = o := by
  unfold toggleAllIn
  rw [if_neg (fun hc => h (beq_iff_eq.mp hc))]

theorem toggleAllIn_names (optionId : String) (o : UiOption) :
    (toggleAllIn optionId o).values.map (fun v => v.name)
      = o.values.map (fun v => v.name) := by
  unfold toggleAllIn
  split
  · simp [List.map_map]
  · rfl

theorem toggleAllIn_of_eq_all_checked (optionId : String) (o : UiOption)
    (hid : o.id = optionId) (hall : o.values.all (fun v => v.checked) = true) :
    (toggleAllIn optionId o).values.all (fun v => !v.checked) = true := by
  unfold toggleAllIn
  rw [if_pos (beq_iff_eq.mpr hid)]
  simp [hall, List.all_map]

theorem toggleAllIn_of_eq_not_all_checked (optionId : String) (o : UiOption)
    (hid : o.id = optionId) (hall : o.values.all (fun v => v.checked) = false) :
    (toggleAllIn optionId o).values.all (fun v => v.checked) = true := by
  unfold toggleAllIn
  rw [if_pos (beq_iff_eq.mpr hid)]
  simp [hall, List.all_map]

theorem toggleAllIn_double (optionId : String) (o : UiOption)
    (hid : o.id = optionId) (hall : o.values.all (fun v => v.checked) = false) :
    (toggleAllIn optionId (toggleAllIn optionId o)).values.all
      (fun v => !v.checked) = true := by
  have h1 := toggleAllIn_of_eq_not_all_checked optionId o hid hall
  have hid1 : (toggleAllIn optionId o).id = o.id := by
    unfold toggleAllIn; split <;> rfl
  apply toggleAllIn_of_eq_all_checked optionId _ (hid1.trans hid) h1

/-- C7: `toggleAllValues(optionId)` maps every option with the given id to a
copy whose values are all unchecked when they were all checked and all
checked otherwise (same value names in the same order), leaves every other
option unchanged, and a second call on an option that started with not all
values checked leaves all its values unchecked. -/
theorem C7_toggleAllValues :
    ∀ (currentOptions : List UiOption) (optionId : String),
      (handleToggleAllValues currentOptions optionId).length = currentOptions.length ∧
      (∀ (i : Nat) (h : i < currentOptions.length)
          (h2 : i < (handleToggleAllValues currentOptions optionId).length),
        ((currentOptions.get ⟨i, h⟩).id ≠ optionId →
          (handleToggleAllValues currentOptions optionId).get ⟨i, h2⟩
            = currentOptions.get ⟨i, h⟩) ∧
        ((currentOptions.get ⟨i, h⟩).id = optionId →
          (((handleToggleAllValues currentOptions optionId).get ⟨i, h2⟩).values.map
              (fun v => v.name))
            = ((currentOptions.get ⟨i, h⟩).values.map (fun v => v.name)) ∧
          ((currentOptions.get ⟨i, h⟩).values.all (fun v => v.checked) = true →
            ((handleToggleAllValues currentOptions optionId).get ⟨i, h2⟩).values.all
              (fun v => !v.checked) = true) ∧
          ((currentOptions.get ⟨i, h⟩).values.all (fun v => v.checked) = false →
            ((handleToggleAllValues currentOptions optionId).get ⟨i, h2⟩).values.all
              (fun v => v.checked) = true))) ∧
      (∀ (i : Nat) (h : i < currentOptions.length)
          (h3 : i < (handleToggleAllValues
            (handleToggleAllValues currentOptions optionId) optionId).length),
        (currentOptions.get ⟨i, h⟩).id = optionId →
        (currentOptions.get ⟨i, h⟩).values.all (fun v => v.checked) = false →
          ((handleToggleAllValues (handleToggleAllValues currentOptions optionId)
              optionId).get ⟨i, h3⟩).values.all (fun v => !v.checked) = true) := by
  intro currentOptions optionId
  refine ⟨by rw [handleToggleAllValues_eq_map, List.length_map], ?_, ?_⟩
  · intro i h h2
    rw [handleToggleAllValues_get currentOptions optionId i h h2]
    refine ⟨fun hne => toggleAllIn_of_ne optionId _ hne, fun heq => ⟨?_, ?_, ?_⟩⟩
    · exact toggleAllIn_names optionId _
    · exact toggleAllIn_of_eq_all_checked optionId _ heq
    · exact toggleAllIn_of_eq_not_all_checked optionId _ heq
  · intro i h h3
    intro heq hall
    have hlen1 : i < (handleToggleAllValues currentOptions optionId).length := by
      rw [handleToggleAllValues_eq_map, List.length_map]; exact h
    rw [handleToggleAllValues_get _ optionId i hlen1 h3,
      handleToggleAllValues_get currentOptions optionId i h hlen1]
    exact toggleAllIn_double optionId _ heq hall

/-- Witness for `C7_toggleAllValues`: an option with 3 of 5 values checked —
one call checks all 5, a second call unchecks all 5; an option with a
different id is untouched. -/
theorem C7_toggleAllValues_witness :
    ((handleToggleAllValues
        [⟨"x", "Color", [⟨"a", true⟩, ⟨"b", false⟩, ⟨"c", true⟩, ⟨"d", false⟩, ⟨"e", true⟩], "text"⟩,
         ⟨"y", "Size", [⟨"s", false⟩], "text"⟩] "x").get ⟨0, by decide⟩).values.all
      (fun v => v.checked) = true ∧
    ((handleToggleAllValues (handleToggleAllValues
        [⟨"x", "Color", [⟨"a", true⟩, ⟨"b", false⟩, ⟨"c", true⟩, ⟨"d", false⟩, ⟨"e", true⟩], "text"⟩,
         ⟨"y", "Size", [⟨"s", false⟩], "text"⟩] "x") "x").get ⟨0, by decide⟩).values.all
      (fun v => !v.checked) = true ∧
    ((handleToggleAllValues
        [⟨"x", "Color", [⟨"a", true⟩, ⟨"b", false⟩, ⟨"c", true⟩, ⟨"d", false⟩, ⟨"e", true⟩], "text"⟩,
         ⟨"y", "Size", [⟨"s", false⟩], "text"⟩] "x").get ⟨1, by decide⟩)
      = ⟨"y", "Size", [⟨"s", false⟩], "text"⟩ := by
  have h := C7_toggleAllValues
    [⟨"x", "Color", [⟨"a", true⟩, ⟨"b", false⟩, ⟨"c", true⟩, ⟨"d", false⟩, ⟨"e", true⟩], "text"⟩,
     ⟨"y", "Size", [⟨"s", false⟩], "text"⟩] "x"
  refine ⟨((h.2.1 0 (by decide) (by decide)).2 (by decide)).2.2 (by decide), ?_, ?_⟩
  · exact h.2.2 0 (by decide) (by decide) (by decide) (by decide)
  · exact (h.2.1 1 (by decide) (by decide)).1 (by decide)

/-! ## Claims C8, C9 — server-to-UI transformation in `useOptions` -/

/-- The per-value body of `transformOptions`. -/
def transformValue (value : ServerValue) : UiValueP :=
  { name := value.value, checked := value.isActive,
    position := jsOrInt value.position 0 }

/-- The per-option body of `transformOptions`. -/
def transformOne (option : ServerOption) : UiOptionP :=
  { id := option.id, name := option.name,
    type := jsOrStr option.type "text",
    position := jsOrInt option.position 0,
    isRequired := jsOrBool option.isRequired true,
    values := option.values.map transformValue }

theorem transformOptions_eq_map (serverOptions : List ServerOption) :
    transformOptions serverOptions = serverOptions.map transformOne := rfl

theorem transformOptions_get (l : List ServerOption) (i : Nat)
    (h : i < l.length) (h2 : i < (transformOptions l).length) :
    (transformOptions l).get ⟨i, h2⟩ = transformOne (l.get ⟨i, h⟩) := by
  simp only [transformOptions_eq_map, List.get_eq_getElem, List.getElem_map]

theorem jsOrInt_some (p d : Int) : jsOrInt (some p) d = if p = 0 then d else p := rfl

theorem jsOrInt_some_zero_default (p : Int) : jsOrInt (some p) 0 = p := by
  rw [jsOrInt_some]
  by_cases hp : p = 0
  · rw [if_pos hp, hp]
  · rw [if_neg hp]

theorem transformOne_type_none (option : ServerOption) (h : option.type = none) :
    (transformOne option).type = "text" := by
  simp [transformOne, h, jsOrStr]

theorem transformOne_type_some (option : ServerOption) (t : String)
    (h : option.type = some t) (hne : t ≠ "") : (transformOne option).type = t := by
  simp [transformOne, h, jsOrStr, hne]

theorem transformOne_position_none (option : ServerOption)
    (h : option.position = none) : (transformOne option).position = 0 := by
  simp [transformOne, h, jsOrInt]

theorem transformOne_position_some (option : ServerOption) (p : Int)
    (h : option.position = some p) : (transformOne option).position = p := by
  have : (transformOne option).position = jsOrInt (some p) 0 := by
    simp [transformOne, h]
  rw [this, jsOrInt_some_zero_default]

theorem transformValue_position_none (value : ServerValue)
    (h : value.position = none) : (transformValue value).position = 0 := by
  simp [transformValue, h, jsOrInt]

theorem transformValue_position_some (value : ServerValue) (q : Int)
    (h : value.position = some q) : (transformValue value).position = q := by
  have : (transformValue value).position = jsOrInt (some q) 0 := by
    simp [transformValue, h]
  rw [this, jsOrInt_some_zero_default]

/-- C8: `transformOptions` renames each value's `value` to `name` and
`isActive` to `checked`, defaults a missing option `type` to `"text"` (and
keeps a present non-empty one), defaults a missing `position` to `0` (and
keeps a present one), on both the option and each value, carrying a
`position` field on every transformed option and value. -/
theorem C8_transform_shape :
    ∀ (serverOptions : List ServerOption),
      (transformOptions serverOptions).length = serverOptions.length ∧
      (∀ (i : Nat) (h : i < serverOptions.length)
          (h2 : i < (transformOptions serverOptions).length),
        ((transformOptions serverOptions).get ⟨i, h2⟩).id
            = (serverOptions.get ⟨i, h⟩).id ∧
        ((transformOptions serverOptions).get ⟨i, h2⟩).name
            = (serverOptions.get ⟨i, h⟩).name ∧
        ((serverOptions.get ⟨i, h⟩).type = none →
          ((transformOptions serverOptions).get ⟨i, h2⟩).type = "text") ∧
        (∀ t : String, (serverOptions.get ⟨i, h⟩).type = some t → t ≠ "" →
          ((transformOptions serverOptions).get ⟨i, h2⟩).type = t) ∧
        ((serverOptions.get ⟨i, h⟩).position = none →
          ((transformOptions serverOptions).get ⟨i, h2⟩).position = 0) ∧
        (∀ p : Int, (serverOptions.get ⟨i, h⟩).position = some p →
          ((transformOptions serverOptions).get ⟨i, h2⟩).position = p) ∧
        (((transformOptions serverOptions).get ⟨i, h2⟩).values
            = (serverOptions.get ⟨i, h⟩).values.map transformValue) ∧
        (∀ value : ServerValue,
          (transformValue value).name = value.value ∧
          (transformValue value).checked = value.isActive ∧
          (value.position = none → (transformValue value).position = 0) ∧
          (∀ q : Int, value.position = some q → (transformValue value).position = q))) := by
  intro serverOptions
  refine ⟨by rw [transformOptions_eq_map, List.length_map], ?_⟩
  intro i h h2
  rw [transformOptions_get serverOptions i h h2]
  refine ⟨rfl, rfl, ?_, ?_, ?_, ?_, rfl, ?_⟩
  · exact transformOne_type_none _
  · exact transformOne_type_some _
  · exact transformOne_position_none _
  · intro p hp
    exact transformOne_position_some _ p hp
  · intro value
    exact ⟨rfl, rfl, transformValue_position_none value,
      fun q hq => transformValue_position_some value q hq⟩

/-- Witness for `C8_transform_shape`: a concrete option with missing type and
position and one value with an explicit position. -/
theorem C8_transform_shape_witness :
    ((transformOptions [⟨"i1", "Mat", none, none, some true,
        [⟨"Oak", false, some 4⟩]⟩]).get ⟨0, by decide⟩).type = "text" ∧
    ((transformOptions [⟨"i1", "Mat", none, none, some true,
        [⟨"Oak", false, some 4⟩]⟩]).get ⟨0, by decide⟩).position = 0 ∧
    (transformValue ⟨"Oak", false, some 4⟩).name = "Oak" ∧
    (transformValue ⟨"Oak", false, some 4⟩).checked = false ∧
    (transformValue ⟨"Oak", false, some 4⟩).position = 4 := by
  have h := (C8_transform_shape [⟨"i1", "Mat", none, none, some true,
    [⟨"Oak", false, some 4⟩]⟩]).2 0 (by decide) (by decide)
  refine ⟨h.2.2.1 rfl, h.2.2.2.2.1 rfl, ?_⟩
  have hv := h.2.2.2.2.2.2.2 ⟨"Oak", false, some 4⟩
  exact ⟨hv.1, hv.2.1, hv.2.2.2 4 rfl⟩

/-- C9: every option produced by the server-to-UI transformation has
`isRequired = true` — the code computes `option.isRequired || true`, which is
`true` even when the stored flag is `false`. -/
theorem C9_isRequired_always_true :
    ∀ (serverOptions : List ServerOption),
      ∀ uo ∈ transformOptions serverOptions, uo.isRequired = true := by
  intro serverOptions uo huo
  rw [transformOptions_eq_map] at huo
  obtain ⟨so, _, rfl⟩ := List.mem_map.mp huo
  show jsOrBool so.isRequired true = true
  unfold jsOrBool
  cases so.isRequired with
  | none => rfl
  | some b => cases b <;> rfl

/-- Witness for `C9_isRequired_always_true`: an option persisted with
`isRequired = false` still comes out with `isRequired = true`. -/
theorem C9_isRequired_always_true_witness :
    ((⟨"i2", "Opt", "text", 1, true, []⟩ : UiOptionP)
        ∈ transformOptions [⟨"i2", "Opt", some "text", some 1, some false, []⟩]) ∧
    (⟨"i2", "Opt", "text", 1, true, []⟩ : UiOptionP).isRequired = true :=
  ⟨by decide, C9_isRequired_always_true
    [⟨"i2", "Opt", some "text", some 1, some false, []⟩]
    ⟨"i2", "Opt", "text", 1, true, []⟩ (by decide)⟩

/-! ## Claim C10 — `deleteOptions` error wrapping -/

/-- C10: every failure of `deleteOptions` — empty id list, missing shop,
unmatched ids — is an error whose message is `"Failed to delete options: "`
followed by the underlying message; the two validation failures carry their
fixed messages. -/
theorem C10_delete_error_wrapped :
    ∀ (db : DB) (optionIds : List String) (shop : String) (e : String),
      (deleteOptions db optionIds shop).2 = Except.error e →
      ((∃ m, e = "Failed to delete options: " ++ m) ∧
       (optionIds.length = 0 →
         e = "Failed to delete options: " ++ "No option IDs provided for deletion") ∧
       (optionIds.length ≠ 0 → shop = "" →
         e = "Failed to delete options: " ++ "Shop identifier is required for deletion")) := by
  intro db optionIds shop e he
  unfold deleteOptions at he
  by_cases h0 : optionIds.length = 0
  · rw [if_pos h0] at he
    simp only [Except.error.injEq] at he
    exact ⟨⟨_, he.symm⟩, fun _ => he.symm, fun hn _ => absurd h0 hn⟩
  · rw [if_neg h0] at he
    by_cases hs : shop = ""
    · rw [if_pos (by simp [hs])] at he
      simp only [Except.error.injEq] at he
      exact ⟨⟨_, he.symm⟩, fun hz => absurd hz h0, fun _ _ => he.symm⟩
    · rw [if_neg (by simp [hs])] at he
      by_cases hlen : (db.options.filter
          (fun o => optionIds.contains o.id && o.shop == shop)).length = optionIds.length
      · rw [if_neg (fun hc => hc hlen)] at he
        simp only [Except.ok.injEq] at he
        exact absurd he (by simp)
      · rw [if_pos hlen] at he
        simp only [Except.error.injEq] at he
        exact ⟨⟨_, he.symm⟩, fun hz => absurd hz h0, fun _ hs' => absurd hs' hs⟩

/-- Witness for `C10_delete_error_wrapped`: the empty-id-list failure on a
concrete store. -/
theorem C10_delete_error_wrapped_witness :
    ∃ m, ("Failed to delete options: " ++ "No option IDs provided for deletion")
        = "Failed to delete options: " ++ m ∧
      (deleteOptions ⟨[], []⟩ [] "shopZ").2
        = Except.error ("Failed to delete options: " ++ m) := by
  obtain ⟨⟨m, hm⟩, h2, _⟩ := C10_delete_error_wrapped ⟨[], []⟩ [] "shopZ"
    ("Failed to delete options: " ++ "No option IDs provided for deletion") rfl
  exact ⟨"No option IDs provided for deletion", rfl, rfl⟩
